import Mathlib

/-!
# Civic Scout dashboard — verification of the spec against the code

Shallow embedding of the civic-scout-dashboard front end (React/TypeScript)
and of the spec-described enrichment backend. Pure fragments of the
components become Lean functions; React state updates become explicit
functions from the previous state to the next state.
-/

namespace CivicScout

/-! ## String helpers mirroring the JavaScript primitives used by the code

`lowerStr` mirrors `String.prototype.toLowerCase` (per-character lowering,
which agrees with JS on the ASCII text handled here); `strContains hay needle`
mirrors `hay.includes(needle)` (substring containment); `trimStr` mirrors
`String.prototype.trim` (strip leading and trailing whitespace). -/

def lowerStr (s : String) : String :=
  String.mk (s.data.map Char.toLower)

def strContains (hay needle : String) : Bool :=
  decide (needle.data <:+: hay.data)

def isWsChar (c : Char) : Bool :=
  c.isWhitespace

def trimStr (s : String) : String :=
  String.mk (((s.data.dropWhile isWsChar).reverse.dropWhile isWsChar).reverse)

/-! ## Legacy front-end data model (`src/types/event.ts`, lines 1–23)

This is the `CivicEvent` interface that `src/pages/Index.tsx` and its sample
data are written against: `impact_summary`, numeric `id`, six-member topic
enum, optional `coordinates`. -/

namespace Legacy

inductive EventTopic where
  | zoningHousing
  | schoolsEducation
  | budgetFinance
  | transitInfrastructure
  | publicSafety
  | other
deriving DecidableEq

inductive Borough where
  | manhattan
  | brooklyn
  | queens
  | bronx
  | statenIsland
deriving DecidableEq

structure Coordinates where
  lat : Rat
  lng : Rat
deriving DecidableEq

structure CivicEvent where
  id : Nat
  title : String
  impact_summary : String
  date_time : String
  location : String
  topic : EventTopic
  link : String
  coordinates : Option Coordinates
deriving DecidableEq

end Legacy

/-! ## `src/pages/Index.tsx`: sample data, filtering, and the toggle handlers -/

namespace Index

open Legacy

/-- The hard-coded `sampleEvents` list of `Index.tsx` (lines 11–66),
transcribed field by field. -/
def sampleEvents : List CivicEvent :=
  [ ⟨12345, "Public Hearing: Zoning Change, CB4",
      "Crucial. This meeting will discuss a plan to eliminate 20 low-income housing units in the area. Your voice is needed to advocate for affordable housing.",
      "2025-12-20T18:00:00Z", "Bronx County Hall, Room 101",
      .zoningHousing, "https://council.nyc.gov/calendar/", none⟩
  , ⟨12346, "School Budget Review Meeting",
      "Important. The Board of Education will review proposed cuts to after-school programs affecting 15 elementary schools in Queens.",
      "2025-12-18T17:30:00Z", "Queens Borough Hall, Conference Room A",
      .schoolsEducation, "https://council.nyc.gov/calendar/", none⟩
  , ⟨12347, "Transit Infrastructure Planning Session",
      "The MTA will present plans for new bus routes in Brooklyn. This could improve commute times for thousands of residents.",
      "2025-12-22T14:00:00Z", "Brooklyn Municipal Building, Room 305",
      .transitInfrastructure, "https://council.nyc.gov/calendar/", none⟩
  , ⟨12348, "Community Safety Forum",
      "Urgent. Discussion on proposed changes to community policing strategies in Manhattan. Resident input will shape policy decisions.",
      "2025-12-19T19:00:00Z", "Manhattan Community Center, Main Hall",
      .publicSafety, "https://council.nyc.gov/calendar/", none⟩
  , ⟨12349, "Annual Budget Hearing - Parks Department",
      "The Parks Department will present next year\x27s budget. Critical decisions about playground maintenance and new green spaces will be discussed.",
      "2025-12-23T10:00:00Z", "City Hall, Council Chambers",
      .budgetFinance, "https://council.nyc.gov/calendar/", none⟩
  , ⟨12350, "Affordable Housing Development Review",
      "Crucial. Final review of a proposed 200-unit affordable housing complex in Staten Island. Community feedback will influence the final decision.",
      "2025-12-24T16:00:00Z", "Staten Island Borough Hall, Room 201",
      .zoningHousing, "https://council.nyc.gov/calendar/", none⟩
  ]

/-- The filter callback of the `filteredEvents` memo (`Index.tsx` lines
102–110): reject the event when some topic is selected and the event's topic
is not among them; otherwise keep it.  The callback consults only
`selectedTopics` — the source comments `// Borough filtering would work with
actual location data` and never reads `selectedBoroughs`. -/
def keepEvent (selectedTopics : List EventTopic) (event : CivicEvent) : Bool :=
  if selectedTopics.length > 0 && !(selectedTopics.contains event.topic) then
    false
  else
    true

/-- `filteredEvents` (`Index.tsx` lines 102–110): `sampleEvents.filter(...)`. -/
def filteredEvents (selectedTopics : List EventTopic) : List CivicEvent :=
  sampleEvents.filter (keepEvent selectedTopics)

/-- The list of events `Index.tsx` renders as cards (lines 181–184), as a
function of the full selection state.  It is `filteredEvents`, which ignores
the borough selection. -/
def renderedList (_selectedBoroughs : List Borough)
    (selectedTopics : List EventTopic) : List CivicEvent :=
  filteredEvents selectedTopics

/-- `handleBoroughChange` (`Index.tsx` lines 73–79) as the pure state-update
function passed to `setSelectedBoroughs`: remove the borough when present,
append it when absent. -/
def handleBoroughChange (borough : Borough) (prev : List Borough) : List Borough :=
  if prev.contains borough then
    prev.filter (fun b => decide (b ≠ borough))
  else
    prev ++ [borough]

/-- `handleTopicChange` (`Index.tsx` lines 81–87), the same update for the
topic selection. -/
def handleTopicChange (topic : EventTopic) (prev : List EventTopic) : List EventTopic :=
  if prev.contains topic then
    prev.filter (fun t => decide (t ≠ topic))
  else
    prev ++ [topic]

end Index

/-! ## Wire-contract data model (`src/types/event.ts`, lines 24–49)

The `CivicEvent` interface matching the backend wire contract:
`community_impact_summary`, string `id`, `impact_score`, nine-member topic
enum, optional `latitude`/`longitude`/`borough`. -/

namespace Wire

inductive EventTopic where
  | zoningHousing
  | education
  | budgetFinance
  | transportation
  | publicSafety
  | healthSocialServices
  | legislationPolicy
  | environment
  | other
deriving DecidableEq

/-- The nine members of the `EventTopic` union type, in source order. -/
def allTopics : List EventTopic :=
  [.zoningHousing, .education, .budgetFinance, .transportation, .publicSafety,
   .healthSocialServices, .legislationPolicy, .environment, .other]

structure CivicEvent where
  id : String
  title : String
  community_impact_summary : String
  date_time : String
  location : String
  topic : EventTopic
  link : String
  impact_score : Int
  latitude : Option Rat
  longitude : Option Rat
  borough : Option Legacy.Borough
deriving DecidableEq

/-- The names of the required (no `?`) fields of the `CivicEvent` interface,
transcribed from `src/types/event.ts` lines 24–36 in source order. -/
def requiredFields : List String :=
  ["id", "title", "community_impact_summary", "date_time", "location",
   "topic", "link", "impact_score"]

/-- The names of the optional (`?`) fields of the `CivicEvent` interface,
transcribed from `src/types/event.ts` lines 24–36 in source order. -/
def optionalFields : List String :=
  ["latitude", "longitude", "borough"]

end Wire

/-- The wire-contract field list as the spec states it: "`id, title,
community_impact_summary, date_time (ISO-8601), location, topic (enum), link,
impact_score (1-5), latitude?, longitude?, borough?`" — the unmarked fields
are required. -/
def specRequiredFields : List String :=
  ["id", "title", "community_impact_summary", "date_time", "location",
   "topic", "link", "impact_score"]

/-- The fields the spec's wire contract marks optional with `?`:
`latitude?, longitude?, borough?`. -/
def specOptionalFields : List String :=
  ["latitude", "longitude", "borough"]

/-! ## The wire-contract event card (`src/unnamed/part_002`) -/

namespace EventCard

structure TopicStyle where
  bg : String
  text : String
deriving DecidableEq

/-- `topicStyles : Record<string, {bg, text}>` (`part_002` lines 11–21),
as an association list in source order. -/
def topicStyles : List (String × TopicStyle) :=
  [ ("Zoning/Housing", ⟨"bg-orange-500/15", "text-orange-600"⟩)
  , ("Education", ⟨"bg-blue-500/15", "text-blue-600"⟩)
  , ("Budget/Finance", ⟨"bg-green-500/15", "text-green-600"⟩)
  , ("Transportation", ⟨"bg-purple-500/15", "text-purple-600"⟩)
  , ("Public Safety", ⟨"bg-red-500/15", "text-red-600"⟩)
  , ("Health/Social Services", ⟨"bg-pink-500/15", "text-pink-600"⟩)
  , ("Legislation/Policy", ⟨"bg-slate-500/15", "text-slate-600"⟩)
  , ("Environment", ⟨"bg-emerald-500/15", "text-emerald-600"⟩)
  , ("Other", ⟨"bg-gray-500/15", "text-gray-600"⟩)
  ]

/-- `topicStyles[topic]`: record indexing returns the entry when the key is
present and `undefined` (here `none`) otherwise. -/
def topicStyleLookup (topic : String) : Option TopicStyle :=
  topicStyles.lookup topic

/-- `topicStyles[event.topic] || topicStyles["Other"]` (`part_002` line 55):
fall back to the `"Other"` entry when the indexing yields `undefined`. -/
def styleFor (topic : String) : Option TopicStyle :=
  match topicStyleLookup topic with
  | some s => some s
  | none => topicStyleLookup "Other"

/-- The `urgentKeywords` list of `isHighImpact` (`part_002` line 47). -/
def urgentKeywords : List String :=
  ["crucial", "urgent", "critical", "vulnerable", "underserved"]

/-- `isHighImpact(impactScore, summary)` (`part_002` lines 45–51): true when
the score is at least 4, otherwise when some urgent keyword occurs in the
lower-cased summary. -/
def isHighImpact (impactScore : Int) (summary : String) : Bool :=
  if impactScore ≥ 4 then
    true
  else
    urgentKeywords.any (fun keyword => strContains (lowerStr summary) keyword)

/-- The `urgent` flag computed by `EventCard` (`part_002` line 54), which
gates the "High Impact Meeting" banner (lines 66–71). -/
def urgent (event : Wire.CivicEvent) : Bool :=
  isHighImpact event.impact_score event.community_impact_summary

end EventCard

/-! ## The ZIP-code form (`src/components/HeroSection.tsx`) -/

namespace HeroSection

/-- The `onChange` handler of the ZIP input (`HeroSection.tsx` line 77):
the new state is `e.target.value.replace(/\D/g, "")`, the field value with
every non-digit character removed.  The `maxLength={5}` attribute (line 74)
bounds the field value itself to at most 5 characters. -/
def sanitizeZip (value : String) : String :=
  String.mk (value.data.filter Char.isDigit)

/-- `handleSubmit` (`HeroSection.tsx` lines 13–18) as a function from the
`zipCode` state to the argument passed to `onZipCodeSubmit`: `none` when the
trimmed state is empty (falsy), `some (trimmed state)` otherwise. -/
def handleSubmit (zipCode : String) : Option String :=
  if trimStr zipCode = "" then none else some (trimStr zipCode)

end HeroSection

/-! ## The fetch-and-render states of the events page

Modelled from the spec: the page variant that fetches `GET /api/events` and
renders loading/error/empty states is not among the provided sources — only
its Playwright test (`tests/e2e/map-and-toasts.spec.ts`) is.  Spec §6: "Non-2xx
or malformed body is treated by the consumer as a load failure"; spec §7: "the
presentation layer distinguishes \x7bempty result\x7d (valid response, zero
events) from \x7bload failure\x7d (non-2xx/exception) and renders distinct
feedback for each". -/

namespace Fetch

/-- Outcome of the fetch of `GET /api/events`: an HTTP response with a status
code and (when the body parses as an events list) the decoded events, or a
thrown exception. -/
inductive FetchOutcome where
  | response (status : Nat) (events : Option (List Wire.CivicEvent))
  | exception
deriving DecidableEq

/-- The feedback states of the events page: the grid of event cards, the
no-events state, or the load-failure indication. -/
inductive ViewState where
  | eventsView (cards : List Wire.CivicEvent)
  | noEventsView
  | loadFailureView
deriving DecidableEq

/-- Modelled from the spec: the page renders a load failure on an exception,
a non-2xx status, or a malformed body; the no-events state on a valid
response with zero events; and the cards otherwise. -/
def render : FetchOutcome → ViewState
  | .exception => .loadFailureView
  | .response status events =>
    if 200 ≤ status ∧ status < 300 then
      match events with
      | none => .loadFailureView
      | some [] => .noEventsView
      | some evs => .eventsView evs
    else
      .loadFailureView

/-- The event cards a view state renders: only the events view renders any. -/
def cardsRendered : ViewState → List Wire.CivicEvent
  | .eventsView cards => cards
  | .noEventsView => []
  | .loadFailureView => []

end Fetch

/-! ## The enrichment backend

Modelled from the spec: the FastAPI backend (`packages/civic-scout-agent`,
started by `scripts/start-backend.sh`) — discovery, the Impact Classifier
with its keyword fallback, the geocoder adapter, and the enrichment
pipeline — is not among the provided sources; only its launcher script,
README description, and the front-end consumer are.  The definitions below
follow spec §3 (data model), §4.1 (classifier), §4.2 (geocoder) and §4.3
(pipeline).  The two external calls (LLM, geocoding service) are passed in
as oracle functions returning `Option`, `none` standing for any failure
(timeout, rate limit, no match, schema violation). -/

namespace Backend

open Wire (EventTopic)

/-- Spec §3: `RawEvent: \x7bid, title, description, raw_location,
scheduled_at\x7d`, plus the source link that the wire contract carries
through to `CivicEvent.link`. -/
structure RawEvent where
  id : String
  title : String
  description : String
  raw_location : String
  scheduled_at : String
  link : String
deriving DecidableEq

/-- Spec §3: `ClassificationResult: \x7bimpact_score: integer 1..5,
community_impact_summary, topic\x7d`. -/
structure ClassificationResult where
  impact_score : Int
  community_impact_summary : String
  topic : EventTopic
deriving DecidableEq

/-- Spec §3: `GeoResult = \x7blatitude, longitude\x7d | null`; the point half
of that union. -/
structure GeoPoint where
  latitude : Rat
  longitude : Rat
deriving DecidableEq

/-- Spec §4.1: the primary path validates the LLM response "strictly against
that schema (reject free text, reject out-of-range scores)". -/
def validResult (r : ClassificationResult) : Bool :=
  1 ≤ r.impact_score && r.impact_score ≤ 5

/-- Modelled from the spec §4.1: "a fixed keyword-to-topic mapping (e.g.
\x22housing\x22/\x22zoning\x22 → Zoning/Housing; \x22school\x22 → Education;
etc.)", extended with the evident entries for the remaining topics named by
the README's filter keywords. -/
def keywordTopics : List (String × EventTopic) :=
  [ ("housing", .zoningHousing)
  , ("zoning", .zoningHousing)
  , ("school", .education)
  , ("budget", .budgetFinance)
  , ("transit", .transportation)
  , ("police", .publicSafety)
  , ("health", .healthSocialServices)
  ]

/-- Spec §4.1: "a fixed keyword-to-score boost (presence of urgency words
like \x22crucial,\x22 \x22eliminate,\x22 \x22cut\x22 raises score toward the
top of the 1-5 range)". -/
def urgencyKeywords : List String :=
  ["crucial", "eliminate", "cut"]

/-- The first keyword-to-topic entry whose keyword occurs in the lower-cased
text, if any. -/
def matchedTopic (text : String) : Option (String × EventTopic) :=
  keywordTopics.find? (fun kv => strContains (lowerStr text) kv.1)

/-- Whether an urgency keyword occurs in the lower-cased text. -/
def hasUrgency (text : String) : Bool :=
  urgencyKeywords.any (fun k => strContains (lowerStr text) k)

/-- Modelled from the spec §4.1: the deterministic keyword fallback —
scan title+description against the fixed tables; "default topic
\x22Other\x22, default score is the midpoint of the scale when no keyword
matches", urgency words raising the score toward the top of the range. -/
def classifyFallback (title description : String) : ClassificationResult :=
  let text := title ++ " " ++ description
  { impact_score := if hasUrgency text then 4 else 3
  , community_impact_summary := description
  , topic :=
      match matchedTopic text with
      | some kv => kv.2
      | none => .other }

/-- Modelled from the spec §4.1: `classify(title, description)` never fails
the caller — use the LLM result when the call succeeds and the result passes
schema validation, otherwise fall back synchronously.  `llm` is the oracle
for the primary path; `none` is any primary-path failure. -/
def classify (llm : String → String → Option ClassificationResult)
    (title description : String) : ClassificationResult :=
  match llm title description with
  | some r => if validResult r then r else classifyFallback title description
  | none => classifyFallback title description

/-- Modelled from the spec §4.2/§4.3: per-event assembly of the final
`CivicEvent` — the union of the raw event, the classification result, and
the geocoding result, geocoding failure yielding absent coordinates. -/
def enrichOne (llm : String → String → Option ClassificationResult)
    (geocode : String → Option GeoPoint) (raw : RawEvent) : Wire.CivicEvent :=
  let c := classify llm raw.title raw.description
  let g := geocode raw.raw_location
  { id := raw.id
  , title := raw.title
  , community_impact_summary := c.community_impact_summary
  , date_time := raw.scheduled_at
  , location := raw.raw_location
  , topic := c.topic
  , link := raw.link
  , impact_score := c.impact_score
  , latitude := g.map GeoPoint.latitude
  , longitude := g.map GeoPoint.longitude
  , borough := none }

/-- Modelled from the spec §4.3: `enrich(rawEvents)` processes each event
independently, output order matching input discovery order. -/
def enrich (llm : String → String → Option ClassificationResult)
    (geocode : String → Option GeoPoint) (rawEvents : List RawEvent) :
    List Wire.CivicEvent :=
  rawEvents.map (enrichOne llm geocode)

end Backend

/-! ## Claim-side definitions -/

namespace Index

/-- The rendered list as claim C2's words describe it: exactly those sample
events whose topic is among the selected topics (all events when no topic is
selected) and whose borough is among the selected boroughs (all events when
no borough is selected).  The legacy `CivicEvent` record carries no borough
field, so the event's borough is supplied by an arbitrary assignment
`boroughOf` (possibly absent, and an absent borough is never among a
non-empty selection). -/
def claimRendered (boroughOf : Legacy.CivicEvent → Option Legacy.Borough)
    (selectedBoroughs : List Legacy.Borough)
    (selectedTopics : List Legacy.EventTopic) : List Legacy.CivicEvent :=
  sampleEvents.filter fun e =>
    (decide (selectedTopics = []) || decide (e.topic ∈ selectedTopics)) &&
    (decide (selectedBoroughs = []) ||
      (boroughOf e).elim false (fun b => decide (b ∈ selectedBoroughs)))

end Index

/-- The common shape of the two selection-toggle handlers of `Index.tsx`:
`prev.includes(v) ? prev.filter(x => x !== v) : [...prev, v]`.
`Index.handleBoroughChange` and `Index.handleTopicChange` are definitionally
this function at `Borough` and `EventTopic`. -/
def toggleValue {α : Type} [DecidableEq α] (value : α) (prev : List α) : List α :=
  if prev.contains value then
    prev.filter (fun x => decide (x ≠ value))
  else
    prev ++ [value]

/-! ## Helper lemmas -/

lemma mem_allTopics (t : Wire.EventTopic) : t ∈ Wire.allTopics := by
  cases t <;> decide

lemma classifyFallback_score (t d : String) :
    (Backend.classifyFallback t d).impact_score =
      if Backend.hasUrgency (t ++ " " ++ d) then 4 else 3 := rfl

lemma classifyFallback_topic (t d : String) :
    (Backend.classifyFallback t d).topic =
      match Backend.matchedTopic (t ++ " " ++ d) with
      | some kv => kv.2
      | none => Wire.EventTopic.other := rfl

lemma classifyFallback_score_range (t d : String) :
    1 ≤ (Backend.classifyFallback t d).impact_score ∧
      (Backend.classifyFallback t d).impact_score ≤ 5 := by
  rw [classifyFallback_score]
  split <;> exact ⟨by decide, by decide⟩

lemma classify_score_range (llm : String → String → Option Backend.ClassificationResult)
    (t d : String) :
    1 ≤ (Backend.classify llm t d).impact_score ∧
      (Backend.classify llm t d).impact_score ≤ 5 := by
  cases hl : llm t d with
  | none =>
    have he : Backend.classify llm t d = Backend.classifyFallback t d := by
      unfold Backend.classify
      rw [hl]
    rw [he]
    exact classifyFallback_score_range t d
  | some r =>
    by_cases hv : Backend.validResult r = true
    · have he : Backend.classify llm t d = r := by
        unfold Backend.classify
        rw [hl]
        exact if_pos hv
      rw [he]
      unfold Backend.validResult at hv
      simp only [Bool.and_eq_true, decide_eq_true_eq] at hv
      exact hv
    · have he : Backend.classify llm t d = Backend.classifyFallback t d := by
        unfold Backend.classify
        rw [hl]
        exact if_neg hv
      rw [he]
      exact classifyFallback_score_range t d

lemma lookup_eq_none_of_not_mem_keys {β : Type} (a : String) (l : List (String × β))
    (h : a ∉ l.map Prod.fst) : l.lookup a = none := by
  induction l with
  | nil => rfl
  | cons kv rest ih =>
    obtain ⟨k, b⟩ := kv
    simp only [List.map, List.mem_cons] at h
    push_neg at h
    have hne : (a == k) = false := beq_eq_false_iff_ne.mpr h.1
    simp only [List.lookup_cons, hne]
    exact ih h.2

lemma trimStr_data_subset (s : String) : ∀ c ∈ (trimStr s).data, c ∈ s.data := by
  intro c hc
  have hc1 : c ∈ (s.data.dropWhile isWsChar).reverse.dropWhile isWsChar := by
    simpa only [trimStr, List.mem_reverse] using hc
  have hc2 : c ∈ (s.data.dropWhile isWsChar).reverse :=
    (List.dropWhile_sublist isWsChar).mem hc1
  exact (List.dropWhile_sublist isWsChar).mem (List.mem_reverse.mp hc2)

lemma trimStr_length_le (s : String) : (trimStr s).length ≤ s.length := by
  show (((s.data.dropWhile isWsChar).reverse.dropWhile isWsChar).reverse).length ≤
    s.data.length
  rw [List.length_reverse]
  calc ((s.data.dropWhile isWsChar).reverse.dropWhile isWsChar).length
      ≤ (s.data.dropWhile isWsChar).reverse.length :=
        (List.dropWhile_sublist isWsChar).length_le
    _ = (s.data.dropWhile isWsChar).length := List.length_reverse _
    _ ≤ s.data.length := (List.dropWhile_sublist isWsChar).length_le

lemma toggleValue_of_mem {α : Type} [DecidableEq α] {v : α} {l : List α} (h : v ∈ l) :
    toggleValue v l = l.filter (fun x => decide (x ≠ v)) := by
  unfold toggleValue
  rw [if_pos (List.elem_iff.mpr h)]

lemma toggleValue_of_not_mem {α : Type} [DecidableEq α] {v : α} {l : List α} (h : v ∉ l) :
    toggleValue v l = l ++ [v] := by
  unfold toggleValue
  rw [if_neg (fun hc => h (List.elem_iff.mp hc))]

lemma filter_ne_of_not_mem {α : Type} [DecidableEq α] {v : α} {l : List α} (h : v ∉ l) :
    l.filter (fun x => decide (x ≠ v)) = l := by
  apply List.filter_eq_self.mpr
  intro a ha
  exact decide_eq_true (fun he => h (he ▸ ha))

lemma filter_ne_eq_erase {α : Type} [DecidableEq α] (v : α) (l : List α)
    (h : List.count v l ≤ 1) : l.filter (fun x => decide (x ≠ v)) = l.erase v := by
  induction l with
  | nil => rfl
  | cons a rest ih =>
    by_cases hav : a = v
    · subst hav
      have hc1 : List.count a (a :: rest) = List.count a rest + 1 := by
        rw [List.count_cons]
        simp
      have hcnt : List.count a rest = 0 := by omega
      have hnm : a ∉ rest := List.count_eq_zero.mp hcnt
      rw [List.erase_cons_head, List.filter_cons, if_neg (by simp)]
      exact filter_ne_of_not_mem hnm
    · have hc1 : List.count v (a :: rest) = List.count v rest := by
        rw [List.count_cons, if_neg (by simp [hav])]
        omega
      have hcnt : List.count v rest ≤ 1 := by omega
      rw [List.filter_cons, if_pos (decide_eq_true hav),
        List.erase_cons_tail (by simp [hav]), ih hcnt]

lemma toggleValue_not_mem_of_mem {α : Type} [DecidableEq α] {v : α} {l : List α}
    (h : v ∈ l) : v ∉ toggleValue v l := by
  rw [toggleValue_of_mem h]
  intro hc
  have := (List.mem_filter.mp hc).2
  simp at this

lemma toggleValue_twice_perm {α : Type} [DecidableEq α] (v : α) (l : List α)
    (h : List.count v l ≤ 1) : (toggleValue v (toggleValue v l)).Perm l := by
  by_cases hm : v ∈ l
  · have hve : v ∉ l.erase v := by
      intro hc
      have h1 := List.count_erase_self v l
      have hpos := List.count_pos_iff.mpr hc
      omega
    rw [toggleValue_of_mem hm, filter_ne_eq_erase v l h, toggleValue_of_not_mem hve]
    exact ((List.perm_cons_erase hm).trans
      (List.perm_append_singleton v (l.erase v)).symm).symm
  · rw [toggleValue_of_not_mem hm, toggleValue_of_mem (by simp),
      List.filter_append, filter_ne_of_not_mem hm, List.filter_cons]
    simp only [List.filter_nil]
    rw [if_neg (by simp)]
    simp

lemma toggleValue_twice_of_not_mem {α : Type} [DecidableEq α] {v : α} {l : List α}
    (h : v ∉ l) : toggleValue v (toggleValue v l) = l := by
  rw [toggleValue_of_not_mem h, toggleValue_of_mem (by simp),
    List.filter_append, filter_ne_of_not_mem h, List.filter_cons]
  simp only [List.filter_nil]
  rw [if_neg (by simp)]
  simp

lemma handleBoroughChange_eq_toggle (b : Legacy.Borough) (l : List Legacy.Borough) :
    Index.handleBoroughChange b l = toggleValue b l := rfl

lemma handleTopicChange_eq_toggle (t : Legacy.EventTopic) (l : List Legacy.EventTopic) :
    Index.handleTopicChange t l = toggleValue t l := rfl

/-! ## Claim theorems -/

/-- C1: the presentation layer distinguishes an empty result from a load
failure: a 200 response with an empty events list renders the no-events
state and never the load-failure state, while an HTTP 500 response renders
the load-failure indication with no event cards rendered. -/
theorem distinct_empty_and_failure_states :
    (Fetch.render (.response 200 (some [])) = Fetch.ViewState.noEventsView ∧
      Fetch.render (.response 200 (some [])) ≠ Fetch.ViewState.loadFailureView) ∧
    ∀ events, Fetch.render (.response 500 events) = Fetch.ViewState.loadFailureView ∧
      Fetch.cardsRendered (Fetch.render (.response 500 events)) = [] := by
  refine ⟨⟨by decide, by decide⟩, fun events => ?_⟩
  have h : ¬(200 ≤ 500 ∧ 500 < 300) := by decide
  simp only [Fetch.render]
  rw [if_neg h]
  exact ⟨rfl, rfl⟩

/-- C3: the `CivicEvent` wire contract has exactly the spec's fields —
required `id, title, community_impact_summary, date_time, location, topic,
link, impact_score` with `latitude, longitude, borough` optional — and every
event's topic is a member of the topic enum. -/
theorem civicEvent_wire_fields :
    Wire.requiredFields = specRequiredFields ∧
    Wire.optionalFields = specOptionalFields ∧
    ∀ e : Wire.CivicEvent, e.topic ∈ Wire.allTopics :=
  ⟨rfl, rfl, fun e => mem_allTopics e.topic⟩

/-- C4: every `CivicEvent` produced by the enrichment pipeline carries a
topic from the enum and an impact score in 1..5, for every behaviour of the
two external services; latitude and longitude are legitimately absent when
geocoding fails, without losing the other fields. -/
theorem civicEvent_invariants :
    (∀ (llm : String → String → Option Backend.ClassificationResult)
       (geocode : String → Option Backend.GeoPoint)
       (raws : List Backend.RawEvent) (e : Wire.CivicEvent),
        e ∈ Backend.enrich llm geocode raws →
          1 ≤ e.impact_score ∧ e.impact_score ≤ 5 ∧ e.topic ∈ Wire.allTopics) ∧
    (∀ (llm : String → String → Option Backend.ClassificationResult)
       (raw : Backend.RawEvent),
        (Backend.enrichOne llm (fun _ => none) raw).latitude = none ∧
        (Backend.enrichOne llm (fun _ => none) raw).longitude = none ∧
        (Backend.enrichOne llm (fun _ => none) raw).id = raw.id) := by
  constructor
  · intro llm geocode raws e he
    unfold Backend.enrich at he
    obtain ⟨r, _, rfl⟩ := List.mem_map.mp he
    exact ⟨(classify_score_range llm r.title r.description).1,
      (classify_score_range llm r.title r.description).2, mem_allTopics _⟩
  · intro llm raw
    exact ⟨rfl, rfl, rfl⟩

/-- C4 witness: a concrete raw event enriched with both external calls
failing yields an event with score in range and an enum topic. -/
theorem civicEvent_invariants_witness :
    (Backend.enrichOne (fun _ _ => none) (fun _ => none)
        ⟨"evt-1", "Hearing", "Agenda", "City Hall", "2025-12-01T10:00", "https://x"⟩ ∈
      Backend.enrich (fun _ _ => none) (fun _ => none)
        [⟨"evt-1", "Hearing", "Agenda", "City Hall", "2025-12-01T10:00", "https://x"⟩]) ∧
    (1 ≤ (Backend.enrichOne (fun _ _ => none) (fun _ => none)
        ⟨"evt-1", "Hearing", "Agenda", "City Hall", "2025-12-01T10:00", "https://x"⟩).impact_score ∧
      (Backend.enrichOne (fun _ _ => none) (fun _ => none)
        ⟨"evt-1", "Hearing", "Agenda", "City Hall", "2025-12-01T10:00", "https://x"⟩).impact_score ≤ 5 ∧
      (Backend.enrichOne (fun _ _ => none) (fun _ => none)
        ⟨"evt-1", "Hearing", "Agenda", "City Hall", "2025-12-01T10:00", "https://x"⟩).topic ∈
        Wire.allTopics) := by
  have hm : Backend.enrichOne (fun _ _ => none) (fun _ => none)
      ⟨"evt-1", "Hearing", "Agenda", "City Hall", "2025-12-01T10:00", "https://x"⟩ ∈
      Backend.enrich (fun _ _ => none) (fun _ => none)
        [⟨"evt-1", "Hearing", "Agenda", "City Hall", "2025-12-01T10:00", "https://x"⟩] :=
    List.mem_singleton.mpr rfl
  exact ⟨hm, civicEvent_invariants.1 _ _ _ _ hm⟩

/-- C5: every event whose impact score is 4, or whose community impact
summary contains the urgency keyword "vulnerable" case-insensitively, is
marked high-impact by the event card. -/
theorem eventCard_marks_high_impact (e : Wire.CivicEvent)
    (h : e.impact_score = 4 ∨
      strContains (lowerStr e.community_impact_summary) "vulnerable" = true) :
    EventCard.urgent e = true := by
  unfold EventCard.urgent EventCard.isHighImpact
  rcases h with h | h
  · rw [if_pos (by rw [h])]
  · by_cases hge : e.impact_score ≥ 4
    · rw [if_pos hge]
    · rw [if_neg hge]
      exact List.any_eq_true.mpr ⟨"vulnerable", by decide, h⟩

/-- C5 witness: the scenario-B event — topic Public Safety, impact score 4,
summary containing "vulnerable" — is rendered with the high-impact
indication. -/
theorem eventCard_marks_high_impact_witness :
    ((⟨"42", "Committee on Health", "Affects vulnerable communities.",
        "2025-12-01T10:00", "250 Broadway", Wire.EventTopic.publicSafety,
        "https://x", 4, none, none, none⟩ : Wire.CivicEvent).impact_score = 4 ∨
      strContains (lowerStr (⟨"42", "Committee on Health",
        "Affects vulnerable communities.", "2025-12-01T10:00", "250 Broadway",
        Wire.EventTopic.publicSafety, "https://x", 4, none, none,
        none⟩ : Wire.CivicEvent).community_impact_summary) "vulnerable" = true) ∧
    EventCard.urgent (⟨"42", "Committee on Health",
      "Affects vulnerable communities.", "2025-12-01T10:00", "250 Broadway",
      Wire.EventTopic.publicSafety, "https://x", 4, none, none, none⟩ :
      Wire.CivicEvent) = true :=
  ⟨Or.inl rfl, eventCard_marks_high_impact _ (Or.inl rfl)⟩

/-- C6: when the primary LLM path is unavailable, `classify` returns a
result with an in-range score and an enum topic; when no keyword matches,
the topic is `Other` and the score is the midpoint 3. -/
theorem classify_fallback_total (title description : String) :
    (1 ≤ (Backend.classify (fun _ _ => none) title description).impact_score ∧
      (Backend.classify (fun _ _ => none) title description).impact_score ≤ 5 ∧
      (Backend.classify (fun _ _ => none) title description).topic ∈ Wire.allTopics) ∧
    (Backend.matchedTopic (title ++ " " ++ description) = none →
      Backend.hasUrgency (title ++ " " ++ description) = false →
      (Backend.classify (fun _ _ => none) title description).topic =
          Wire.EventTopic.other ∧
        (Backend.classify (fun _ _ => none) title description).impact_score = 3) := by
  have hc : Backend.classify (fun _ _ => none) title description =
      Backend.classifyFallback title description := rfl
  rw [hc]
  constructor
  · exact ⟨(classifyFallback_score_range title description).1,
      (classifyFallback_score_range title description).2, mem_allTopics _⟩
  · intro hm hu
    constructor
    · rw [classifyFallback_topic, hm]
    · rw [classifyFallback_score, hu]
      simp

/-- C6 witness: a title and description matching no keyword classify to
topic `Other` with the midpoint score 3. -/
theorem classify_fallback_total_witness :
    (Backend.matchedTopic ("Town Hall" ++ " " ++ "Open forum.") = none ∧
      Backend.hasUrgency ("Town Hall" ++ " " ++ "Open forum.") = false) ∧
    ((Backend.classify (fun _ _ => none) "Town Hall" "Open forum.").topic =
        Wire.EventTopic.other ∧
      (Backend.classify (fun _ _ => none) "Town Hall" "Open forum.").impact_score = 3) :=
  ⟨⟨by decide, by decide⟩,
    (classify_fallback_total "Town Hall" "Open forum.").2 (by decide) (by decide)⟩

/-- C7: enrichment preserves count and order — the output has the input's
length, and the event at every index keeps the id of the raw event at the
same index. -/
theorem enrich_preserves_ids (llm : String → String → Option Backend.ClassificationResult)
    (geocode : String → Option Backend.GeoPoint) (raws : List Backend.RawEvent) :
    (Backend.enrich llm geocode raws).length = raws.length ∧
    ∀ i : Nat, Option.map Wire.CivicEvent.id (Backend.enrich llm geocode raws)[i]? =
      Option.map Backend.RawEvent.id raws[i]? := by
  constructor
  · exact List.length_map raws (Backend.enrichOne llm geocode)
  · intro i
    unfold Backend.enrich
    rw [List.getElem?_map]
    cases raws[i]? with
    | none => rfl
    | some r => rfl

/-- C9: the event card's topic-to-style lookup is total — for every topic
string it yields a style, and when the topic is not among the mapped keys it
yields the `"Other"` style. -/
theorem topic_style_total (topic : String) :
    (EventCard.styleFor topic).isSome = true ∧
    (topic ∉ EventCard.topicStyles.map Prod.fst →
      EventCard.styleFor topic = some ⟨"bg-gray-500/15", "text-gray-600"⟩) := by
  constructor
  · unfold EventCard.styleFor
    cases h : EventCard.topicStyleLookup topic with
    | some s => rfl
    | none => rfl
  · intro hmem
    have hn : EventCard.topicStyleLookup topic = none :=
      lookup_eq_none_of_not_mem_keys topic EventCard.topicStyles hmem
    unfold EventCard.styleFor
    rw [hn]
    rfl

/-- C9 witness: the legacy topic string "Schools/Education" is not among the
mapped keys and falls back to the `"Other"` style. -/
theorem topic_style_total_witness :
    ("Schools/Education" ∉ EventCard.topicStyles.map Prod.fst) ∧
    EventCard.styleFor "Schools/Education" = some ⟨"bg-gray-500/15", "text-gray-600"⟩ :=
  ⟨by decide, (topic_style_total "Schools/Education").2 (by decide)⟩

/-- C10: the ZIP form only ever submits a non-empty, all-digit string of
length at most 5 — the change handler strips non-digits, the field is capped
at 5 characters, and empty submissions are suppressed. -/
theorem zip_submit_digits_only (raw out : String) (hlen : raw.length ≤ 5)
    (hsub : HeroSection.handleSubmit (HeroSection.sanitizeZip raw) = some out) :
    out ≠ "" ∧ out.data.all Char.isDigit = true ∧ out.length ≤ 5 := by
  unfold HeroSection.handleSubmit at hsub
  by_cases hempty : trimStr (HeroSection.sanitizeZip raw) = ""
  · rw [if_pos hempty] at hsub
    exact absurd hsub (by simp)
  · rw [if_neg hempty] at hsub
    obtain rfl : trimStr (HeroSection.sanitizeZip raw) = out := Option.some.inj hsub
    refine ⟨hempty, ?_, ?_⟩
    · rw [List.all_eq_true]
      intro c hc
      have hcs := trimStr_data_subset (HeroSection.sanitizeZip raw) c hc
      exact (List.mem_filter.mp hcs).2
    · calc (trimStr (HeroSection.sanitizeZip raw)).length
          ≤ (HeroSection.sanitizeZip raw).length := trimStr_length_le _
        _ ≤ raw.length := List.length_filter_le Char.isDigit raw.data
        _ ≤ 5 := hlen

/-- C2 counterexample: the rendered list is not filtered by borough — there
is no assignment of (optional) boroughs to the sample events under which the
rendered list equals the claim's borough-and-topic filter for every
selection.  Concretely, with no topic selected the code renders all six
sample events both when only Manhattan is selected and when only Brooklyn
is, which no single borough per event can satisfy. -/
theorem rendered_list_borough_filter_cex :
    ¬ ∃ boroughOf : Legacy.CivicEvent → Option Legacy.Borough,
        ∀ (bs : List Legacy.Borough) (ts : List Legacy.EventTopic),
          Index.renderedList bs ts = Index.claimRendered boroughOf bs ts := by
  rintro ⟨f, h⟩
  have h1 := h [Legacy.Borough.manhattan] []
  have h2 := h [Legacy.Borough.brooklyn] []
  have hr : ∀ bs : List Legacy.Borough,
      Index.renderedList bs [] = Index.sampleEvents := by
    intro bs
    apply List.filter_eq_self.mpr
    intro a _
    rfl
  rw [hr] at h1 h2
  unfold Index.claimRendered at h1 h2
  have hall1 := List.filter_eq_self.mp h1.symm
  have hall2 := List.filter_eq_self.mp h2.symm
  obtain ⟨e0, he0⟩ := List.exists_mem_of_ne_nil Index.sampleEvents (by decide)
  have p1 := hall1 e0 he0
  have p2 := hall2 e0 he0
  simp only [Bool.and_eq_true, Bool.or_eq_true, decide_eq_true_eq] at p1 p2
  have q1 := p1.2
  have q2 := p2.2
  rcases q1 with q1 | q1
  · exact absurd q1 (by simp)
  rcases q2 with q2 | q2
  · exact absurd q2 (by simp)
  cases hf : f e0 with
  | none =>
    rw [hf, Option.elim_none] at q1
    exact Bool.noConfusion q1
  | some b =>
    rw [hf, Option.elim_some] at q1 q2
    simp only [decide_eq_true_eq, List.mem_singleton] at q1 q2
    rw [q1] at q2
    exact Legacy.Borough.noConfusion q2

/-- C2 amended: the rendered list is filtered by topic only — it contains
exactly the sample events whose topic is among the selected topics (all
events when no topic is selected), in the original order of the source
list, and the borough selection has no effect on it. -/
theorem rendered_list_filters_by_topic_only
    (bs bsOther : List Legacy.Borough) (ts : List Legacy.EventTopic) :
    Index.renderedList bs ts =
      Index.sampleEvents.filter
        (fun e => decide (ts = []) || decide (e.topic ∈ ts)) ∧
    Index.renderedList bs ts = Index.renderedList bsOther ts := by
  refine ⟨?_, rfl⟩
  apply List.filter_congr
  intro e _
  unfold Index.keepEvent
  cases ts with
  | nil => rfl
  | cons t rest =>
    have hc : (t :: rest).contains e.topic = decide (e.topic ∈ t :: rest) :=
      List.elem_eq_mem e.topic (t :: rest)
    rw [hc]
    cases hm : decide (e.topic ∈ t :: rest) <;> simp

/-- C8 counterexample: toggling a borough twice does not restore the
original selection list — removing "Manhattan" from the front and
re-appending it moves it to the back — even though it occurs only once. -/
theorem toggle_twice_not_identity_cex :
    List.count Legacy.Borough.manhattan
        [Legacy.Borough.manhattan, Legacy.Borough.brooklyn] ≤ 1 ∧
    Index.handleBoroughChange Legacy.Borough.manhattan
        (Index.handleBoroughChange Legacy.Borough.manhattan
          [Legacy.Borough.manhattan, Legacy.Borough.brooklyn]) ≠
      [Legacy.Borough.manhattan, Legacy.Borough.brooklyn] := by
  constructor
  · decide
  · decide

/-- C8 amended: for selections in which the value occurs at most once, each
toggle handler adds the value when absent (by appending) and removes it when
present, and applying it twice yields a selection containing exactly the
original elements — a permutation of the original list, and the original
list itself whenever the value was absent, though not in general when it
was present. -/
theorem toggle_handlers_amended (b : Legacy.Borough) (bs : List Legacy.Borough)
    (t : Legacy.EventTopic) (ts : List Legacy.EventTopic)
    (hb : List.count b bs ≤ 1) (ht : List.count t ts ≤ 1) :
    ((b ∈ bs → b ∉ Index.handleBoroughChange b bs) ∧
      (b ∉ bs → Index.handleBoroughChange b bs = bs ++ [b]) ∧
      (Index.handleBoroughChange b (Index.handleBoroughChange b bs)).Perm bs ∧
      (b ∉ bs → Index.handleBoroughChange b (Index.handleBoroughChange b bs) = bs)) ∧
    ((t ∈ ts → t ∉ Index.handleTopicChange t ts) ∧
      (t ∉ ts → Index.handleTopicChange t ts = ts ++ [t]) ∧
      (Index.handleTopicChange t (Index.handleTopicChange t ts)).Perm ts ∧
      (t ∉ ts → Index.handleTopicChange t (Index.handleTopicChange t ts) = ts)) := by
  rw [handleBoroughChange_eq_toggle, handleBoroughChange_eq_toggle,
    handleTopicChange_eq_toggle, handleTopicChange_eq_toggle]
  exact ⟨⟨fun hm => toggleValue_not_mem_of_mem hm,
      fun hm => toggleValue_of_not_mem hm,
      toggleValue_twice_perm b bs hb,
      fun hm => toggleValue_twice_of_not_mem hm⟩,
    ⟨fun hm => toggleValue_not_mem_of_mem hm,
      fun hm => toggleValue_of_not_mem hm,
      toggleValue_twice_perm t ts ht,
      fun hm => toggleValue_twice_of_not_mem hm⟩⟩

/-- C8 amended witness: toggling "Queens" on the singleton Manhattan
selection appends it, and toggling twice restores the selection exactly. -/
theorem toggle_handlers_amended_witness :
    (List.count Legacy.Borough.queens [Legacy.Borough.manhattan] ≤ 1 ∧
      List.count Legacy.EventTopic.other [Legacy.EventTopic.publicSafety] ≤ 1 ∧
      Legacy.Borough.queens ∉ [Legacy.Borough.manhattan]) ∧
    (Index.handleBoroughChange Legacy.Borough.queens [Legacy.Borough.manhattan] =
        [Legacy.Borough.manhattan] ++ [Legacy.Borough.queens] ∧
      Index.handleBoroughChange Legacy.Borough.queens
        (Index.handleBoroughChange Legacy.Borough.queens [Legacy.Borough.manhattan]) =
        [Legacy.Borough.manhattan]) := by
  have h := toggle_handlers_amended Legacy.Borough.queens [Legacy.Borough.manhattan]
    Legacy.EventTopic.other [Legacy.EventTopic.publicSafety] (by decide) (by decide)
  exact ⟨⟨by decide, by decide, by decide⟩,
    h.1.2.1 (by decide), h.1.2.2.2 (by decide)⟩

/-- C10 witness: the field value "a1b2" sanitizes to "12" and submits it —
non-empty, all digits, length at most 5. -/
theorem zip_submit_digits_only_witness :
    (("a1b2" : String).length ≤ 5 ∧
      HeroSection.handleSubmit (HeroSection.sanitizeZip "a1b2") = some "12") ∧
    (("12" : String) ≠ "" ∧ ("12" : String).data.all Char.isDigit = true ∧
      ("12" : String).length ≤ 5) :=
  ⟨⟨by decide, by decide⟩, zip_submit_digits_only "a1b2" "12" (by decide) (by decide)⟩

end CivicScout
